import Mathlib

/-!
Verification of the guarded SQL execution layer (packages `sql` and `ssql`).

The Go source is shallowly embedded: the pure validation / string logic is
translated directly; interactions with the database driver (result sets,
EXPLAIN plans, commit/rollback outcomes) are supplied as explicit inputs, and
Go panics are modelled as a `panics` result constructor carrying the panic
signal.  Reflection over a record struct is modelled by the list of its
fields, each field being a pair (declared field name, `database` tag).
-/

namespace SimpleSQL

/-! ## String utilities (ssql/util: StrContainWithIgnoreCase) -/

/-- Does the first list start with the second? (helper for substring search) -/
def listStarts : List Char → List Char → Bool
  | _, [] => true
  | [], _ :: _ => false
  | c :: cs, d :: ds => c == d && listStarts cs ds

/-- Substring containment on char lists (strings.Contains). -/
def listHasSub : List Char → List Char → Bool
  | [], sub => sub.isEmpty
  | c :: cs, sub => listStarts (c :: cs) sub || listHasSub cs sub

/-- strings.ToLower, per-rune lowering. -/
def strToLower (s : String) : String :=
  String.mk (s.toList.map Char.toLower)

/-- `StrContainWithIgnoreCase(target, str)` from the source:
`strings.Contains(strings.ToLower(target), strings.ToLower(str))`. -/
def StrContainWithIgnoreCase (target str : String) : Bool :=
  listHasSub (strToLower target).toList (strToLower str).toList

/-- `strings.Count(query, "$")`: occurrences of the placeholder sentinel. -/
def countPlaceholder (query : String) : Nat :=
  query.toList.count '$'

/-! ## Configuration flags and panic signals (sql/sql.go) -/

/-- Escape marker disabling the sequential-scan audit for one statement. -/
def seqScanCheckDisableClause : String := "seq scan check disable"

/-- Escape marker disabling the mandatory-WHERE check for one statement. -/
def disableWhereCheckClause : String := "where check disable"

/-- Process mode; `Mode` is either `MODE_PRODUCTION` or `MODE_DEBUG`
(an invalid string value makes the source panic, so the embedding uses a
closed enumeration). -/
inductive Mode where
  | production
  | debug
deriving DecidableEq

/-- `isDebugMode()`. -/
def isDebugMode : Mode → Bool
  | .production => false
  | .debug => true

/-- The package-level toggles, plus the mode. -/
structure Config where
  mode : Mode
  useSeqScanCheck : Bool
  useWhereCheck : Bool
  forceNowaitOnLockingRead : Bool
  forceUpdatedAtCheck : Bool
deriving DecidableEq

/-- The defaults from the source: `Mode = MODE_DEBUG` and all four check
toggles initialised to `true`. -/
def defaultConfig : Config :=
  { mode := .debug
    useSeqScanCheck := true
    useWhereCheck := true
    forceNowaitOnLockingRead := true
    forceUpdatedAtCheck := true }

/-- Production-mode configuration with the check toggles at their defaults. -/
def prodConfig : Config :=
  { defaultConfig with mode := .production }

/-- The panic signals raised by `Query`, `Exec` and the materializer,
one constructor per panic site (constants of the source where named). -/
inductive PanicMsg where
  | placeHolderNumberNotMatch
  | queryNotContainSelect
  | selectSQLMustUseWhere
  | deleteSQLMustUseWhere
  | updateSQLMustUseWhere
  | updateSQLMustHaveUpdatedAt
  | lockingReadMustUseNowait
  | sqlIsSeqScan (query : String)
  | noDatabaseLabel (fieldName : String)
  | modelMissingField (col : String)
deriving DecidableEq

/-- Result of a guarded operation: a value, or a Go panic. -/
inductive GoRes (α : Type) where
  | ok (val : α)
  | panics (p : PanicMsg)
deriving DecidableEq

/-! ## Plan auditor (CheckSeqScan) -/

/-- A decoded EXPLAIN plan node: a node kind and its child plans. -/
inductive PlanNode where
  | node (nodeType : String) (plans : List PlanNode)

/-- The node kind of a plan node. -/
def PlanNode.nodeType : PlanNode → String
  | .node t _ => t

/-- The children of a plan node. -/
def PlanNode.plans : PlanNode → List PlanNode
  | .node _ ps => ps

/-- Is a node within `d` levels below (and including) this node tagged as a
sequential scan?  `seqScanWithin 10 p` is what the source computes with its
ten hand-unrolled nested loops over `p[0].Plan.Plans` … `ps9.Plans` combined
with the root-node check: the JSON decoding into the fixed ten-level nested
`Plan` struct keeps node kinds down to depth 10 and loses anything deeper. -/
def seqScanWithin : Nat → PlanNode → Bool
  | 0, p => StrContainWithIgnoreCase p.nodeType "Seq Scan"
  | d + 1, p =>
    StrContainWithIgnoreCase p.nodeType "Seq Scan"
      || p.plans.any (fun q => seqScanWithin d q)

/-- `CheckSeqScan(query, args...)` decision, with the decoded plan of the
statement supplied as input (the source obtains it from
`EXPLAIN (ANALYZE false, FORMAT json)` inside a throwaway rolled-back
transaction; driver failures there panic and are not modelled).  Returns
`true` when the statement passes the audit. -/
def CheckSeqScan (cfg : Config) (query : String) (plan : PlanNode) : Bool :=
  if !cfg.useSeqScanCheck || StrContainWithIgnoreCase query seqScanCheckDisableClause then
    true
  else if seqScanWithin 10 plan then
    false
  else
    true

/-! ## Result materializer (the reflection part of Query) -/

/-- A record type: fields in declaration order, each `(name, database tag)`. -/
abbrev FieldList := List (String × String)

/-- Index into `fields` held by the name-to-address map for tag `col`.
The source builds a Go map by iterating the fields in order and overwriting,
so the *last* field carrying the tag wins. -/
def lastTagIdx : FieldList → String → Option Nat
  | [], _ => none
  | f :: fs, col =>
    match lastTagIdx fs col with
    | some j => some (j + 1)
    | none => if f.2 == col then some 0 else none

/-- First field with an empty `database` tag, if any (its declared name):
the source panics on it while building the map. -/
def missingTagField (fields : FieldList) : Option String :=
  (fields.find? (fun f => f.2 == "")).map (fun f => f.1)

/-- First result-set column that resolves to no field tag, if any: the
source panics on it while building the scan-destination array. -/
def unknownCol (fields : FieldList) (cols : List String) : Option String :=
  cols.find? (fun c => (lastTagIdx fields c).isNone)

/-- One scan destination write: column `cv.1` carries value `cv.2`; the
field the map resolves the column to receives the value. -/
def applyCol (fields : FieldList) (acc : List α) (cv : String × α) : List α :=
  match lastTagIdx fields cv.1 with
  | some j => acc.set j cv.2
  | none => acc

/-- `rows.Scan` into one record: the loop body starts from a fresh copy of
the caller-supplied model value (`structValue = *mp`) and the driver then
writes every result column through the prepared field pointers, in column
order. -/
def scanRow (fields : FieldList) (cols : List String) (model row : List α) : List α :=
  (cols.zip row).foldl (applyCol fields) model

/-! ## Query and Exec pipelines -/

/-- `Query[M]`: the validation checks in source order, then materialization
of the supplied result set (`cols` in the driver's own order, `rows` the
scanned values per row), then the debug-mode plan audit.  The driver call
itself is assumed to succeed (driver errors return or panic before any of
the modelled post-execution steps and are outside the claims). -/
def goQuery (cfg : Config) (fields : FieldList) (model : List α) (query : String)
    (nargs : Nat) (cols : List String) (rows : List (List α)) (plan : PlanNode) :
    GoRes (List (List α)) :=
  if countPlaceholder query != nargs then
    .panics .placeHolderNumberNotMatch
  else if !StrContainWithIgnoreCase query "SELECT " then
    .panics .queryNotContainSelect
  else if cfg.useWhereCheck && !StrContainWithIgnoreCase query " WHERE "
      && !StrContainWithIgnoreCase query disableWhereCheckClause then
    .panics .selectSQLMustUseWhere
  else if cfg.forceNowaitOnLockingRead
      && (StrContainWithIgnoreCase query " FOR SELECT"
          || StrContainWithIgnoreCase query " FOR UPDATE")
      && !StrContainWithIgnoreCase query " NOWAIT" then
    .panics .lockingReadMustUseNowait
  else
    match missingTagField fields with
    | some n => .panics (.noDatabaseLabel n)
    | none =>
      match unknownCol fields cols with
      | some c => .panics (.modelMissingField c)
      | none =>
        let r := rows.map (fun row => scanRow fields cols model row)
        if isDebugMode cfg.mode && !CheckSeqScan cfg query plan then
          .panics (.sqlIsSeqScan query)
        else
          .ok r

/-- `Exec`: the validation checks in source order, then the debug-mode plan
audit; the driver call is assumed to succeed (its `sql.Result` is not
modelled). -/
def goExec (cfg : Config) (query : String) (nargs : Nat) (plan : PlanNode) :
    GoRes Unit :=
  if countPlaceholder query != nargs then
    .panics .placeHolderNumberNotMatch
  else if cfg.useWhereCheck && StrContainWithIgnoreCase query "DELETE "
      && !StrContainWithIgnoreCase query " WHERE "
      && !StrContainWithIgnoreCase query disableWhereCheckClause then
    .panics .deleteSQLMustUseWhere
  else if StrContainWithIgnoreCase query "UPDATE " && cfg.useWhereCheck
      && !StrContainWithIgnoreCase query " WHERE "
      && !StrContainWithIgnoreCase query disableWhereCheckClause then
    .panics .updateSQLMustUseWhere
  else if StrContainWithIgnoreCase query "UPDATE " && cfg.forceUpdatedAtCheck
      && !StrContainWithIgnoreCase query "updated_at" then
    .panics .updateSQLMustHaveUpdatedAt
  else if isDebugMode cfg.mode && !CheckSeqScan cfg query plan then
    .panics (.sqlIsSeqScan query)
  else
    .ok ()

/-! ## Transaction coordinator (doAndRecover, Transaction) -/

/-- Outcome of the caller-supplied unit of work `f`: normal return with nil
error, normal return with a non-nil error of type `ε`, or a panic carrying a
value of type `π`. -/
inductive FOut (ε π : Type) where
  | ok
  | fail (e : ε)
  | panics (p : π)
deriving DecidableEq

/-- Outcome the driver reports for `tx.Commit()`: success, the pgx
`ErrTxCommitRollback` signal, or any other error. -/
inductive CommitRes where
  | ok
  | errTxCommitRollback
  | otherErr
deriving DecidableEq

/-- Driver actions the coordinator attempts, in order. -/
inductive TxEvent where
  | begins
  | rollback
  | commit
deriving DecidableEq

/-- How a `Transaction` call terminates: a normal return carrying `f`'s
error (or none), or a panic. -/
inductive TxPanic (π : Type) where
  | user (p : π)
  | rollbackErr
  | beginErr
  | commitDespiteErrInTx
  | commitErr
deriving DecidableEq

/-- Result of `Transaction`: return value or propagated panic. -/
inductive TxOut (ε π : Type) where
  | ret (e : Option ε)
  | panicked (p : TxPanic π)
deriving DecidableEq

/-- `Transaction(c, f)`.  The environment supplies whether `DB.Begin()`
succeeds, the outcome of `f`, whether `tx.Rollback()` succeeds, and the
outcome of `tx.Commit()`; the function returns the list of attempted driver
actions in order, together with the call's result.  `doAndRecover` is the
recover-and-rollback wrapper around `f`: on a panic from `f` it rolls back
and re-raises the recovered value (or panics with the rollback error when
rollback fails). -/
def goTransaction (beginOk : Bool) (fout : FOut ε π) (rollbackOk : Bool)
    (commitRes : CommitRes) : List TxEvent × TxOut ε π :=
  if !beginOk then
    ([.begins], .panicked .beginErr)
  else
    match fout with
    | .panics p =>
      if rollbackOk then
        ([.begins, .rollback], .panicked (.user p))
      else
        ([.begins, .rollback], .panicked .rollbackErr)
    | .fail e =>
      if rollbackOk then
        ([.begins, .rollback], .ret (some e))
      else
        ([.begins, .rollback], .panicked .rollbackErr)
    | .ok =>
      match commitRes with
      | .ok => ([.begins, .commit], .ret none)
      | .errTxCommitRollback => ([.begins, .commit], .panicked .commitDespiteErrInTx)
      | .otherErr => ([.begins, .commit], .panicked .commitErr)

/-! ## ORM update builder (ssql/orm.go) -/

/-- A Go `any` value as the builder sees it: the builder only distinguishes
strings (for the "NOW" sentinel test), captured instants, and everything
else. -/
inductive GoVal where
  | vstr (s : String)
  | vtime (t : Nat)
  | vint (n : Int)
  | vnull
deriving DecidableEq

/-- The rewrite the builder applies to one set-value: a string equal to the
literal sentinel "NOW" becomes the captured instant, anything else is kept. -/
def rewriteNowSentinel (now : Nat) (v : GoVal) : GoVal :=
  match v with
  | .vstr s => if s = "NOW" then .vtime now else .vstr s
  | w => w

/-- The regexp rewrite `([a-z0-9])([A-Z])` → `${1}_${2}` scanned left to
right, both matched characters consumed per match. -/
def camelSnake : List Char → List Char
  | c1 :: c2 :: rest =>
    if (c1.isLower || c1.isDigit) && c2.isUpper then
      c1 :: '_' :: c2 :: camelSnake rest
    else
      c1 :: camelSnake (c2 :: rest)
  | l => l

/-- `toTableName`: CamelCase → snake_case, lowered, plural suffix. -/
def toTableName (str : String) : String :=
  strToLower (String.mk (camelSnake str.toList)) ++ "s"

/-- The body of `replacePlaceholders`: every occurrence of the generic
marker is rewritten to the next sequential positional placeholder. -/
def replaceQ : List Char → Nat → List Char
  | [], _ => []
  | c :: rest, idx =>
    if c = '?' then
      '$' :: (Nat.repr (idx + 1)).toList ++ replaceQ rest (idx + 1)
    else
      c :: replaceQ rest idx

/-- `replacePlaceholders(query, startIdx)`. -/
def replacePlaceholders (query : String) (startIdx : Nat) : String :=
  String.mk (replaceQ query.toList startIdx)

/-- `getUpdateSQL(s, whereClauses, whereValues, setClauses, setValues)` with
the instant captured by its single `time.Now()` call supplied as `now` and
the struct's declared type name as `structName`. -/
def getUpdateSQL (now : Nat) (structName : String) (whereClauses : List String)
    (whereValues : List GoVal) (setClauses : List String) (setValues : List GoVal) :
    String × List GoVal :=
  let setClauses2 := setClauses ++ ["updated_at = ?"]
  let values := (setValues.map (rewriteNowSentinel now)) ++ [.vtime now] ++ whereValues
  let whereClause :=
    if whereClauses.length > 0 then
      " WHERE " ++ String.intercalate " AND " whereClauses
    else ""
  let query := "UPDATE " ++ toTableName structName ++ " SET "
      ++ String.intercalate ", " setClauses2 ++ whereClause
  (replacePlaceholders query 0, values)

/-- `getOrderedKeys`: the map's keys, sorted (`slices.Sort`).  The Go map is
modelled as an association list whose order stands for the (arbitrary)
iteration order. -/
def getOrderedKeys (setMaps : List (String × GoVal)) : List String :=
  List.insertionSort (fun a b => a ≤ b) (setMaps.map Prod.fst)

/-- Go map read `m[k]` for a key known to be present. -/
def mapGet (m : List (String × GoVal)) (k : String) : GoVal :=
  match m.find? (fun kv => kv.1 == k) with
  | some kv => kv.2
  | none => .vnull

/-- `Update(tx, s, whereClauses, whereValues, setMaps)` up to the point the
generated SQL and value list are handed to `Exec`: set-clauses and
set-values are accumulated over the ordered keys, then passed to
`getUpdateSQL`. -/
def goUpdate (now : Nat) (structName : String) (whereClauses : List String)
    (whereValues : List GoVal) (setMaps : List (String × GoVal)) :
    String × List GoVal :=
  let setField := getOrderedKeys setMaps
  let setClauses := setField.map (fun f => f ++ " = ?")
  let setValues := setField.map (fun f => mapGet setMaps f)
  getUpdateSQL now structName whereClauses whereValues setClauses setValues

/-! ## Theorems -/

/-- Claim C1: for every unit of work `f` given to `Transaction`: a non-nil
error from `f` makes the coordinator roll back and then return exactly that
error; a panic from `f` makes it roll back and then re-raise the original
panic value after rollback completes; and `Transaction` returns a non-nil
error only when `f` returned that error (it never returns an error of its
own making), the first two parts under the source's stated regime that
begin and rollback themselves succeed (their failure is a panic, not a
return). -/
theorem transaction_rollback_and_error_propagation {ε π : Type}
    (fout : FOut ε π) (commitRes : CommitRes) :
    (∀ e : ε, fout = .fail e →
      goTransaction true fout true commitRes = ([.begins, .rollback], .ret (some e))) ∧
    (∀ p : π, fout = .panics p →
      goTransaction true fout true commitRes = ([.begins, .rollback], .panicked (.user p))) ∧
    (∀ (beginOk rollbackOk : Bool) (events : List TxEvent) (e : ε),
      goTransaction beginOk fout rollbackOk commitRes = (events, .ret (some e)) →
      fout = .fail e) := by
  refine ⟨?_, ?_, ?_⟩
  · intro e he
    subst he
    simp [goTransaction]
  · intro p hp
    subst hp
    simp [goTransaction]
  · intro beginOk rollbackOk events e h
    cases fout <;> cases beginOk <;> cases rollbackOk <;> cases commitRes <;>
      simp_all [goTransaction]

/-- Witness for C1 at a concrete unit-of-work outcome. -/
theorem transaction_rollback_and_error_propagation_witness :
    goTransaction (ε := Nat) (π := String) true (.fail 7) true .ok
      = ([.begins, .rollback], .ret (some 7)) :=
  (transaction_rollback_and_error_propagation (.fail 7) .ok).1 7 rfl

/-- Claim C2: a placeholder-sentinel count different from the argument count
makes both `Query` and `Exec` abort with the placeholder-mismatch signal,
whatever the driver would have answered (the result is the same for every
result set and every plan, so nothing reaches the driver's behavior). -/
theorem query_exec_placeholder_arity (query : String) (nargs : Nat)
    (h : countPlaceholder query ≠ nargs) :
    (∀ (α : Type) (fields : FieldList) (model : List α) (cols : List String)
        (rows : List (List α)) (plan : PlanNode),
      goQuery defaultConfig fields model query nargs cols rows plan
        = .panics .placeHolderNumberNotMatch) ∧
    (∀ plan : PlanNode,
      goExec defaultConfig query nargs plan = .panics .placeHolderNumberNotMatch) := by
  constructor
  · intro α fields model cols rows plan
    simp [goQuery, h]
  · intro plan
    simp [goExec, h]

/-- Witness for C2: a text with two placeholders and one argument aborts. -/
theorem query_exec_placeholder_arity_witness :
    goExec defaultConfig "SELECT * FROM t WHERE id=$1 AND id=$2" 1 (.node "x" [])
      = .panics .placeHolderNumberNotMatch :=
  (query_exec_placeholder_arity "SELECT * FROM t WHERE id=$1 AND id=$2" 1
    (by decide)).2 (.node "x" [])

/-- Claim C3: with the mandatory-WHERE check at its default, a read
statement through `Query` and a DELETE statement through `Exec` containing
neither a case-insensitive " WHERE " substring nor the escape-marker
fragment abort with the respective must-use-where signal, and a statement
containing either one never aborts with that signal. -/
theorem mandatory_where_check (query : String) (nargs : Nat)
    (hq : countPlaceholder query = nargs) :
    ((StrContainWithIgnoreCase query "SELECT " = true) →
      ((StrContainWithIgnoreCase query " WHERE " = false →
        StrContainWithIgnoreCase query disableWhereCheckClause = false →
        ∀ (α : Type) (fields : FieldList) (model : List α) (cols : List String)
            (rows : List (List α)) (plan : PlanNode),
          goQuery defaultConfig fields model query nargs cols rows plan
            = .panics .selectSQLMustUseWhere) ∧
       ((StrContainWithIgnoreCase query " WHERE " = true
          ∨ StrContainWithIgnoreCase query disableWhereCheckClause = true) →
        ∀ (α : Type) (fields : FieldList) (model : List α) (cols : List String)
            (rows : List (List α)) (plan : PlanNode),
          goQuery defaultConfig fields model query nargs cols rows plan
            ≠ .panics .selectSQLMustUseWhere))) ∧
    ((StrContainWithIgnoreCase query "DELETE " = true) →
      ((StrContainWithIgnoreCase query " WHERE " = false →
        StrContainWithIgnoreCase query disableWhereCheckClause = false →
        ∀ plan : PlanNode,
          goExec defaultConfig query nargs plan = .panics .deleteSQLMustUseWhere) ∧
       ((StrContainWithIgnoreCase query " WHERE " = true
          ∨ StrContainWithIgnoreCase query disableWhereCheckClause = true) →
        ∀ plan : PlanNode,
          goExec defaultConfig query nargs plan ≠ .panics .deleteSQLMustUseWhere))) := by
  constructor
  · intro hsel
    constructor
    · intro hw hm α fields model cols rows plan
      simp [goQuery, hq, hsel, hw, hm, defaultConfig]
    · intro hwm α fields model cols rows plan
      have hguard : (defaultConfig.useWhereCheck && !StrContainWithIgnoreCase query " WHERE "
          && !StrContainWithIgnoreCase query disableWhereCheckClause) = false := by
        rcases hwm with h | h <;> simp [defaultConfig, h]
      simp only [goQuery, hq, hguard, hsel]
      split <;> (try simp_all)
      all_goals (split <;> (try simp_all))
      all_goals (split <;> (try simp_all))
      all_goals (split <;> (try simp_all))
      all_goals (split <;> (try simp_all))
  · intro hdel
    constructor
    · intro hw hm plan
      simp [goExec, hq, hdel, hw, hm, defaultConfig]
    · intro hwm plan
      have hguard : (defaultConfig.useWhereCheck && StrContainWithIgnoreCase query "DELETE "
          && !StrContainWithIgnoreCase query " WHERE "
          && !StrContainWithIgnoreCase query disableWhereCheckClause) = false := by
        rcases hwm with h | h <;> simp [defaultConfig, h]
      simp only [goExec, hq, hguard]
      split <;> (try simp_all)
      all_goals (split <;> (try simp_all))
      all_goals (split <;> (try simp_all))
      all_goals (split <;> (try simp_all))
      all_goals (split <;> (try simp_all))

/-- Witness for C3: `SELECT * FROM t` aborts; `DELETE FROM t` aborts. -/
theorem mandatory_where_check_witness :
    goQuery defaultConfig [("A", "a")] [(0 : Nat)] "SELECT * FROM t" 0 [] [] (.node "x" [])
      = .panics .selectSQLMustUseWhere :=
  (((mandatory_where_check "SELECT * FROM t" 0 (by decide)).1 (by decide)).1
    (by decide) (by decide)) Nat [("A", "a")] [0] [] [] (.node "x" [])

/-- Claim C4 counterexample: a locking read without NOWAIT passed to `Exec`
does not abort — `Exec` performs no NOWAIT check, contradicting the claim
that the check applies to the mutation path as well. -/
theorem nowait_exec_counterexample :
    goExec defaultConfig "SELECT * FROM t WHERE id=$1 FOR UPDATE" 1 (.node "Index Scan" [])
        = .ok ()
    ∧ goExec defaultConfig "SELECT * FROM t WHERE id=$1 FOR UPDATE" 1 (.node "Index Scan" [])
        ≠ .panics .lockingReadMustUseNowait := by
  constructor
  · rfl
  · decide

/-- Claim C4 amended: with the NOWAIT check at its default, a statement that
contains a case-insensitive " FOR SELECT" or " FOR UPDATE" clause but not
" NOWAIT" aborts with the locking-read signal on the read path (`Query`)
only; `Exec` never raises the locking-read signal. -/
theorem nowait_locking_read_query_only (query : String) (nargs : Nat)
    (hq : countPlaceholder query = nargs)
    (hsel : StrContainWithIgnoreCase query "SELECT " = true)
    (hwok : StrContainWithIgnoreCase query " WHERE " = true
        ∨ StrContainWithIgnoreCase query disableWhereCheckClause = true) :
    (((StrContainWithIgnoreCase query " FOR SELECT" = true
        ∨ StrContainWithIgnoreCase query " FOR UPDATE" = true) →
      StrContainWithIgnoreCase query " NOWAIT" = false →
      ∀ (α : Type) (fields : FieldList) (model : List α) (cols : List String)
          (rows : List (List α)) (plan : PlanNode),
        goQuery defaultConfig fields model query nargs cols rows plan
          = .panics .lockingReadMustUseNowait) ∧
     (StrContainWithIgnoreCase query " NOWAIT" = true →
      ∀ (α : Type) (fields : FieldList) (model : List α) (cols : List String)
          (rows : List (List α)) (plan : PlanNode),
        goQuery defaultConfig fields model query nargs cols rows plan
          ≠ .panics .lockingReadMustUseNowait)) ∧
    (∀ (q : String) (n : Nat) (plan : PlanNode),
      goExec defaultConfig q n plan ≠ .panics .lockingReadMustUseNowait) := by
  have hwguard : (defaultConfig.useWhereCheck && !StrContainWithIgnoreCase query " WHERE "
      && !StrContainWithIgnoreCase query disableWhereCheckClause) = false := by
    rcases hwok with h | h <;> simp [defaultConfig, h]
  refine ⟨⟨?_, ?_⟩, ?_⟩
  · intro hfor hnw α fields model cols rows plan
    have hlguard : (defaultConfig.forceNowaitOnLockingRead
        && (StrContainWithIgnoreCase query " FOR SELECT"
            || StrContainWithIgnoreCase query " FOR UPDATE")
        && !StrContainWithIgnoreCase query " NOWAIT") = true := by
      rcases hfor with h | h <;> simp [defaultConfig, h, hnw]
    simp [goQuery, hq, hsel, hwguard, hlguard]
  · intro hnw α fields model cols rows plan
    have hlguard : (defaultConfig.forceNowaitOnLockingRead
        && (StrContainWithIgnoreCase query " FOR SELECT"
            || StrContainWithIgnoreCase query " FOR UPDATE")
        && !StrContainWithIgnoreCase query " NOWAIT") = false := by
      simp [defaultConfig, hnw]
    simp only [goQuery, hq, hsel, hwguard, hlguard]
    split <;> (try simp_all)
    all_goals (split <;> (try simp_all))
    all_goals (split <;> (try simp_all))
    all_goals (split <;> (try simp_all))
  · intro q n plan
    simp only [goExec]
    split <;> (try simp_all)
    all_goals (split <;> (try simp_all))
    all_goals (split <;> (try simp_all))
    all_goals (split <;> (try simp_all))
    all_goals (split <;> (try simp_all))

/-- Witness for the amended C4: the read path aborts on a locking read
missing NOWAIT, and a concrete `Exec` call never sees the signal. -/
theorem nowait_locking_read_query_only_witness :
    goQuery defaultConfig [("A", "a")] [(0 : Nat)]
        "SELECT * FROM t WHERE id=$1 FOR UPDATE" 1 ["a"] [] (.node "x" [])
      = .panics .lockingReadMustUseNowait :=
  ((nowait_locking_read_query_only "SELECT * FROM t WHERE id=$1 FOR UPDATE" 1
      (by decide) (by decide) (Or.inl (by decide))).1.1
    (Or.inr (by decide)) (by decide)) Nat [("A", "a")] [0] ["a"] [] (.node "x" [])

/-- Claim C5: with the UPDATE-discipline checks at their defaults, an UPDATE
statement through `Exec` with neither " WHERE " nor the escape marker aborts
with the update-must-use-where signal; one that passes the WHERE condition
but does not reference "updated_at" aborts with the must-have-updated_at
signal; one satisfying both proceeds past these two checks. -/
theorem exec_update_discipline (query : String) (nargs : Nat)
    (hq : countPlaceholder query = nargs)
    (hupd : StrContainWithIgnoreCase query "UPDATE " = true)
    (hnodel : StrContainWithIgnoreCase query "DELETE " = false) :
    (StrContainWithIgnoreCase query " WHERE " = false →
     StrContainWithIgnoreCase query disableWhereCheckClause = false →
      ∀ plan : PlanNode,
        goExec defaultConfig query nargs plan = .panics .updateSQLMustUseWhere) ∧
    ((StrContainWithIgnoreCase query " WHERE " = true
       ∨ StrContainWithIgnoreCase query disableWhereCheckClause = true) →
     StrContainWithIgnoreCase query "updated_at" = false →
      ∀ plan : PlanNode,
        goExec defaultConfig query nargs plan = .panics .updateSQLMustHaveUpdatedAt) ∧
    ((StrContainWithIgnoreCase query " WHERE " = true
       ∨ StrContainWithIgnoreCase query disableWhereCheckClause = true) →
     StrContainWithIgnoreCase query "updated_at" = true →
      ∀ plan : PlanNode,
        goExec defaultConfig query nargs plan ≠ .panics .updateSQLMustUseWhere
          ∧ goExec defaultConfig query nargs plan ≠ .panics .updateSQLMustHaveUpdatedAt) := by
  refine ⟨?_, ?_, ?_⟩
  · intro hw hm plan
    simp [goExec, hq, hupd, hnodel, hw, hm, defaultConfig]
  · intro hwm hua plan
    have hwguard : (StrContainWithIgnoreCase query "UPDATE " && defaultConfig.useWhereCheck
        && !StrContainWithIgnoreCase query " WHERE "
        && !StrContainWithIgnoreCase query disableWhereCheckClause) = false := by
      rcases hwm with h | h <;> simp [defaultConfig, h]
    simp [goExec, hq, hupd, hnodel, hua, hwguard, defaultConfig]
    rcases hwm with h | h <;> simp [h]
  · intro hwm hua plan
    have hwguard : (StrContainWithIgnoreCase query "UPDATE " && defaultConfig.useWhereCheck
        && !StrContainWithIgnoreCase query " WHERE "
        && !StrContainWithIgnoreCase query disableWhereCheckClause) = false := by
      rcases hwm with h | h <;> simp [defaultConfig, h]
    have hdguard : (defaultConfig.useWhereCheck && StrContainWithIgnoreCase query "DELETE "
        && !StrContainWithIgnoreCase query " WHERE "
        && !StrContainWithIgnoreCase query disableWhereCheckClause) = false := by
      simp [defaultConfig, hnodel]
    constructor
    · simp only [goExec, hq, hwguard, hdguard, hupd, hua]
      split <;> (try simp_all)
      all_goals (split <;> (try simp_all))
    · simp only [goExec, hq, hwguard, hdguard, hupd, hua]
      split <;> (try simp_all)
      all_goals (split <;> (try simp_all))
      all_goals (split <;> (try simp_all))

/-- Witness for C5: an UPDATE without WHERE aborts accordingly. -/
theorem exec_update_discipline_witness :
    goExec defaultConfig "UPDATE t SET a=$1" 1 (.node "x" [])
      = .panics .updateSQLMustUseWhere :=
  ((exec_update_discipline "UPDATE t SET a=$1" 1 (by decide) (by decide) (by decide)).1
    (by decide) (by decide)) (.node "x" [])

/-- Claim C6: for a statement that passes validation and materialization,
executed through `Query` or through `Exec` with the audit toggle at its
default, the statement aborts with the seq-scan signal carrying the
offending text iff the mode is DEBUG (in PRODUCTION the audit is skipped),
the statement does not carry the audit escape marker, and the decoded
plan's root node or some descendant within the 10-level depth bound is
tagged as a sequential scan; in particular a plan using only index-based
access paths never aborts. -/
theorem seqscan_audit_debug_only (mode : Mode) (query : String) (nargs : Nat)
    (plan : PlanNode) (fields : FieldList)
    (hq : countPlaceholder query = nargs)
    (hsel : StrContainWithIgnoreCase query "SELECT " = true)
    (hw : StrContainWithIgnoreCase query " WHERE " = true)
    (hnw : StrContainWithIgnoreCase query " FOR SELECT" = false
        ∧ StrContainWithIgnoreCase query " FOR UPDATE" = false)
    (hupd : StrContainWithIgnoreCase query "UPDATE " = false)
    (hnodel : StrContainWithIgnoreCase query "DELETE " = false)
    (hft : missingTagField fields = none) :
    ∀ (α : Type) (model : List α) (cols : List String) (rows : List (List α)),
      unknownCol fields cols = none →
      ((goQuery { defaultConfig with mode := mode } fields model query nargs cols rows plan
          = .panics (.sqlIsSeqScan query))
        ↔ (mode = .debug
            ∧ StrContainWithIgnoreCase query seqScanCheckDisableClause = false
            ∧ seqScanWithin 10 plan = true))
      ∧ ((goExec { defaultConfig with mode := mode } query nargs plan
          = .panics (.sqlIsSeqScan query))
        ↔ (mode = .debug
            ∧ StrContainWithIgnoreCase query seqScanCheckDisableClause = false
            ∧ seqScanWithin 10 plan = true)) := by
  intro α model cols rows huc
  obtain ⟨hnw1, hnw2⟩ := hnw
  constructor
  · simp only [goQuery, hq, hsel, hw, hft, huc, hnw1, hnw2, hupd, hnodel, defaultConfig]
    cases mode
    · simp [isDebugMode]
    · simp only [isDebugMode]
      cases hm : StrContainWithIgnoreCase query seqScanCheckDisableClause
      · cases hs : seqScanWithin 10 plan <;>
          simp [CheckSeqScan, hm, hs, seqScanCheckDisableClause] at hm ⊢
      · simp [CheckSeqScan, hm, seqScanCheckDisableClause] at hm ⊢
  · simp only [goExec, hq, hupd, hnodel, defaultConfig]
    cases mode
    · simp [isDebugMode]
    · simp only [isDebugMode]
      cases hm : StrContainWithIgnoreCase query seqScanCheckDisableClause
      · cases hs : seqScanWithin 10 plan <;>
          simp [CheckSeqScan, hm, hs, seqScanCheckDisableClause] at hm ⊢
      · simp [CheckSeqScan, hm, seqScanCheckDisableClause] at hm ⊢

/-- Witness for C6: a depth-2 plan with a Seq Scan leaf aborts the debug
read path with the statement text. -/
theorem seqscan_audit_debug_only_witness :
    goQuery { defaultConfig with mode := .debug } [("A", "a")] [(0 : Nat)]
        "SELECT * FROM t WHERE id=1" 0 ["a"] [] (.node "Limit" [.node "Seq Scan" []])
      = .panics (.sqlIsSeqScan "SELECT * FROM t WHERE id=1") :=
  ((seqscan_audit_debug_only .debug "SELECT * FROM t WHERE id=1" 0
      (.node "Limit" [.node "Seq Scan" []]) [("A", "a")]
      (by decide) (by decide) (by decide) (by decide) (by decide) (by decide) (by decide)
      Nat [0] ["a"] [] (by decide)).1).mpr ⟨rfl, by decide, by decide⟩

/-- The value list produced by the update builder, definitionally:
rewritten set-values, then the captured instant for "updated_at", then the
where-values. -/
theorem getUpdateSQL_snd (now : Nat) (name : String) (wc : List String)
    (wv : List GoVal) (sc : List String) (sv : List GoVal) :
    (getUpdateSQL now name wc wv sc sv).2
      = sv.map (rewriteNowSentinel now) ++ [.vtime now] ++ wv := rfl

/-- The value bound for the appended "updated_at" clause is the captured
instant. -/
theorem getUpdateSQL_updatedAt_value (now : Nat) (name : String) (wc : List String)
    (wv : List GoVal) (sc : List String) (sv : List GoVal) :
    (getUpdateSQL now name wc wv sc sv).2[sv.length]? = some (.vtime now) := by
  rw [getUpdateSQL_snd, List.append_assoc, List.getElem?_append_right (by simp)]
  simp

/-- Every set-value equal to the "NOW" sentinel is bound to the same
captured instant. -/
theorem getUpdateSQL_now_value (now : Nat) (name : String) (wc : List String)
    (wv : List GoVal) (sc : List String) (sv : List GoVal) (i : Nat)
    (h : sv[i]? = some (.vstr "NOW")) :
    (getUpdateSQL now name wc wv sc sv).2[i]? = some (.vtime now) := by
  have hi : i < sv.length := (List.getElem?_eq_some.mp h).1
  rw [getUpdateSQL_snd, List.append_assoc, List.getElem?_append]
  simp only [List.length_map, hi, if_true]
  rw [List.getElem?_map, h]
  simp [rewriteNowSentinel]

/-- Claim C9: within one call of the update builder one instant is captured
once and shared: the generated SET list is the caller's set-clauses plus
exactly one appended "updated_at = ?" clause, the value bound at the
appended clause's position is the captured instant, and every set-value
equal to the literal "NOW" sentinel is rewritten to that same instant —
both when the builder is reached with explicit clauses (UpdateWithClauses)
and when it is reached from the set-fields map (Update). -/
theorem update_builder_single_instant (now : Nat) (structName : String)
    (wc : List String) (wv : List GoVal) (sc : List String) (sv : List GoVal)
    (setMaps : List (String × GoVal)) :
    ((getUpdateSQL now structName wc wv sc sv).1
       = replacePlaceholders ("UPDATE " ++ toTableName structName ++ " SET "
           ++ String.intercalate ", " (sc ++ ["updated_at = ?"])
           ++ (if wc.length > 0 then " WHERE " ++ String.intercalate " AND " wc else "")) 0)
    ∧ ((getUpdateSQL now structName wc wv sc sv).2[sv.length]? = some (.vtime now))
    ∧ (∀ i : Nat, sv[i]? = some (.vstr "NOW") →
        (getUpdateSQL now structName wc wv sc sv).2[i]? = some (.vtime now))
    ∧ ((goUpdate now structName wc wv setMaps).2[(getOrderedKeys setMaps).length]?
        = some (.vtime now))
    ∧ (∀ i : Nat,
        ((getOrderedKeys setMaps).map (fun f => mapGet setMaps f))[i]? = some (.vstr "NOW") →
        (goUpdate now structName wc wv setMaps).2[i]? = some (.vtime now)) := by
  refine ⟨rfl, getUpdateSQL_updatedAt_value now structName wc wv sc sv, ?_, ?_, ?_⟩
  · exact fun i h => getUpdateSQL_now_value now structName wc wv sc sv i h
  · have h := getUpdateSQL_updatedAt_value now structName wc wv
      ((getOrderedKeys setMaps).map (fun f => f ++ " = ?"))
      ((getOrderedKeys setMaps).map (fun f => mapGet setMaps f))
    unfold goUpdate
    simpa using h
  · intro i h
    unfold goUpdate
    exact getUpdateSQL_now_value now structName wc wv _ _ i h

/-- Witness for C9: with one "NOW" set-value, positions 0 (the sentinel)
and 1 (the appended "updated_at") both carry the same captured instant. -/
theorem update_builder_single_instant_witness :
    (getUpdateSQL 42 "TableForTest" ["uid = ?"] [.vstr "u"] ["name = ?"] [.vstr "NOW"]).2[0]?
        = some (.vtime 42)
    ∧ (getUpdateSQL 42 "TableForTest" ["uid = ?"] [.vstr "u"] ["name = ?"] [.vstr "NOW"]).2[1]?
        = some (.vtime 42) :=
  ⟨(update_builder_single_instant 42 "TableForTest" ["uid = ?"] [.vstr "u"]
      ["name = ?"] [.vstr "NOW"] []).2.2.1 0 (by decide),
   (update_builder_single_instant 42 "TableForTest" ["uid = ?"] [.vstr "u"]
      ["name = ?"] [.vstr "NOW"] []).2.1⟩

/-- With distinct keys, two occurrences of the same key in an association
list carry the same value. -/
theorem keyVal_unique {m : List (String × GoVal)} (hnd : (m.map Prod.fst).Nodup)
    {k : String} {v1 v2 : GoVal} (h1 : (k, v1) ∈ m) (h2 : (k, v2) ∈ m) : v1 = v2 := by
  induction m with
  | nil => cases h1
  | cons a t ih =>
    simp only [List.map_cons, List.nodup_cons] at hnd
    rcases List.mem_cons.mp h1 with h1a | h1t <;> rcases List.mem_cons.mp h2 with h2a | h2t
    · rw [← h1a] at h2a
      exact (Prod.mk.injEq _ _ _ _ |>.mp h2a.symm).2
    · exfalso
      exact hnd.1 (List.mem_map.mpr ⟨(k, v2), h2t, by rw [← h1a]⟩)
    · exfalso
      exact hnd.1 (List.mem_map.mpr ⟨(k, v1), h1t, by rw [← h2a]⟩)
    · exact ih hnd.2 h1t h2t

/-- Go map read through the association-list model: a present binding is
returned. -/
theorem mapGet_eq_of_mem {m : List (String × GoVal)} (hnd : (m.map Prod.fst).Nodup)
    {k : String} {v : GoVal} (h : (k, v) ∈ m) : mapGet m k = v := by
  unfold mapGet
  cases hf : m.find? (fun kv => kv.1 == k) with
  | none =>
    rw [List.find?_eq_none] at hf
    exact absurd (by simp : ((k, v).1 == k) = true) (hf _ h)
  | some kv =>
    have hm := List.mem_of_find?_eq_some hf
    have hpk : kv.1 = k := by simpa using List.find?_some hf
    have hkv : (k, kv.2) ∈ m := by
      rw [← hpk]
      exact hm
    exact keyVal_unique hnd hkv h

/-- Map reads are invariant under reordering of the backing association
list when the keys are distinct. -/
theorem mapGet_perm {m1 m2 : List (String × GoVal)} (hp : m1.Perm m2)
    (hnd : (m1.map Prod.fst).Nodup) (k : String) : mapGet m1 k = mapGet m2 k := by
  by_cases hk : k ∈ m1.map Prod.fst
  · obtain ⟨kv, hkv, hfst⟩ := List.mem_map.mp hk
    have hmem1 : (k, kv.2) ∈ m1 := by
      rw [← hfst]
      exact hkv
    have hmem2 : (k, kv.2) ∈ m2 := hp.subset hmem1
    rw [mapGet_eq_of_mem hnd hmem1,
      mapGet_eq_of_mem ((hp.map Prod.fst).nodup_iff.mp hnd) hmem2]
  · have hk2 : k ∉ m2.map Prod.fst := fun h => hk ((hp.map Prod.fst).mem_iff.mpr h)
    unfold mapGet
    have f1 : m1.find? (fun kv => kv.1 == k) = none := by
      rw [List.find?_eq_none]
      intro kv hkv hbeq
      exact hk (List.mem_map.mpr ⟨kv, hkv, by simpa using hbeq⟩)
    have f2 : m2.find? (fun kv => kv.1 == k) = none := by
      rw [List.find?_eq_none]
      intro kv hkv hbeq
      exact hk2 (List.mem_map.mpr ⟨kv, hkv, by simpa using hbeq⟩)
    rw [f1, f2]

/-- Claim C10: the SET clauses `Update` derives from the set-fields map
follow the ascending lexicographic order of the field names, and the whole
generated SQL text and value list are invariant under the map's iteration
order (modelled as the order of the backing association list), for maps
with distinct keys. -/
theorem update_sorted_deterministic (now : Nat) (structName : String)
    (wc : List String) (wv : List GoVal)
    (m1 m2 : List (String × GoVal)) (hp : m1.Perm m2)
    (hnd : (m1.map Prod.fst).Nodup) :
    (getOrderedKeys m1).Sorted (fun a b => a ≤ b)
    ∧ goUpdate now structName wc wv m1 = goUpdate now structName wc wv m2 := by
  haveI : IsAntisymm String (fun a b => a ≤ b) := ⟨fun _ _ => le_antisymm⟩
  have hkeys : getOrderedKeys m1 = getOrderedKeys m2 := by
    refine List.eq_of_perm_of_sorted (r := fun a b : String => a ≤ b) ?_ ?_ ?_
    · exact (List.perm_insertionSort _ _).trans
        ((hp.map Prod.fst).trans (List.perm_insertionSort _ _).symm)
    · exact List.sorted_insertionSort _ _
    · exact List.sorted_insertionSort _ _
  refine ⟨List.sorted_insertionSort _ _, ?_⟩
  unfold goUpdate
  rw [hkeys]
  have hmg : (fun f => mapGet m1 f) = fun f => mapGet m2 f :=
    funext (fun k => mapGet_perm hp hnd k)
  rw [hmg]

/-- Witness for C10 on a two-key map given in both iteration orders. -/
theorem update_sorted_deterministic_witness :
    (getOrderedKeys [("b", GoVal.vint 1), ("a", GoVal.vstr "x")]).Sorted (fun a b => a ≤ b)
    ∧ goUpdate 5 "User" ["id = ?"] [.vint 9] [("b", .vint 1), ("a", .vstr "x")]
      = goUpdate 5 "User" ["id = ?"] [.vint 9] [("a", .vstr "x"), ("b", .vint 1)] :=
  update_sorted_deterministic 5 "User" ["id = ?"] [.vint 9]
    [("b", .vint 1), ("a", .vstr "x")] [("a", .vstr "x"), ("b", .vint 1)]
    (by decide) (by decide)

/-- The name-to-field map is sound: a resolved index carries the looked-up
tag. -/
theorem lastTagIdx_sound : ∀ (fields : FieldList) (c : String) (j : Nat),
    lastTagIdx fields c = some j → (fields.map Prod.snd)[j]? = some c := by
  intro fields
  induction fields with
  | nil =>
    intro c j h
    simp [lastTagIdx] at h
  | cons f fs ih =>
    intro c j h
    simp only [lastTagIdx] at h
    cases hrec : lastTagIdx fs c with
    | some j2 =>
      rw [hrec] at h
      injection h with h
      subst h
      simpa using ih c j2 hrec
    | none =>
      rw [hrec] at h
      by_cases hbeq : f.2 == c
      · rw [if_pos hbeq] at h
        injection h with h
        subst h
        simpa using eq_of_beq hbeq
      · rw [if_neg hbeq] at h
        cases h

/-- With distinct tags, the map resolves each field's tag back to that
field's index. -/
theorem lastTagIdx_last : ∀ (fields : FieldList), (fields.map Prod.snd).Nodup →
    ∀ (j : Nat) (f : String × String), fields[j]? = some f →
    lastTagIdx fields f.2 = some j := by
  intro fields
  induction fields with
  | nil =>
    intro _ j f h
    simp at h
  | cons g gs ih =>
    intro hnd j f hj
    simp only [List.map_cons, List.nodup_cons] at hnd
    cases j with
    | zero =>
      simp only [List.getElem?_cons_zero] at hj
      injection hj with hj
      subst hj
      have hrec : lastTagIdx gs g.2 = none := by
        cases hrec : lastTagIdx gs g.2 with
        | none => rfl
        | some j2 =>
          exfalso
          exact hnd.1 (List.getElem?_mem (lastTagIdx_sound gs g.2 j2 hrec))
      simp [lastTagIdx, hrec]
    | succ j =>
      simp only [List.getElem?_cons_succ] at hj
      have hrec := ih hnd.2 j f hj
      simp [lastTagIdx, hrec]

/-- Scanning never changes the record's width. -/
theorem foldl_applyCol_length (fields : FieldList) :
    ∀ (zl : List (String × α)) (acc : List α),
      (zl.foldl (applyCol fields) acc).length = acc.length := by
  intro zl
  induction zl with
  | nil =>
    intro acc
    rfl
  | cons cv zs ih =>
    intro acc
    rw [List.foldl_cons, ih]
    unfold applyCol
    cases lastTagIdx fields cv.1 <;> simp

/-- A field index no processed column resolves to keeps its current value
through the whole scan. -/
theorem foldl_applyCol_no_write (fields : FieldList) (j : Nat) :
    ∀ (zl : List (String × α)) (acc : List α),
      (∀ cv ∈ zl, lastTagIdx fields cv.1 ≠ some j) →
      (zl.foldl (applyCol fields) acc)[j]? = acc[j]? := by
  intro zl
  induction zl with
  | nil =>
    intro acc _
    rfl
  | cons cv zs ih =>
    intro acc hno
    rw [List.foldl_cons, ih _ (fun x hx => hno x (List.mem_cons_of_mem cv hx))]
    unfold applyCol
    cases hidx : lastTagIdx fields cv.1 with
    | none => rfl
    | some j2 =>
      have hne : j2 ≠ j := fun he => hno cv (List.mem_cons_self cv zs) (he ▸ hidx)
      exact List.getElem?_set_ne hne

/-- With distinct column names, a field resolved from column `k` ends the
scan holding exactly that column's value for the row. -/
theorem scanRow_get_written (fields : FieldList) :
    ∀ (k : Nat) (cols : List String) (row model : List α) (c : String) (v : α) (j : Nat),
      cols.Nodup →
      cols[k]? = some c → row[k]? = some v → lastTagIdx fields c = some j →
      j < model.length →
      (scanRow fields cols model row)[j]? = some v := by
  intro k
  induction k with
  | zero =>
    intro cols row model c v j hnd hc hv hj hlen
    cases cols with
    | nil => simp at hc
    | cons c0 cs =>
      cases row with
      | nil => simp at hv
      | cons v0 rs =>
        simp only [List.getElem?_cons_zero] at hc hv
        injection hc with hc
        injection hv with hv
        subst hc
        subst hv
        rw [scanRow, List.zip_cons_cons, List.foldl_cons]
        have hstep : applyCol fields model (c0, v0) = model.set j v0 := by
          unfold applyCol
          rw [hj]
        rw [hstep]
        rw [foldl_applyCol_no_write fields j (cs.zip rs) (model.set j v0) ?nowrite]
        case nowrite =>
          intro cv hcv heq
          have h1 := lastTagIdx_sound fields cv.1 j heq
          have h2 := lastTagIdx_sound fields c0 j hj
          rw [h1] at h2
          injection h2 with h2
          have hcv1 : cv.1 ∈ cs := (List.of_mem_zip hcv).1
          simp only [List.nodup_cons] at hnd
          exact hnd.1 (h2 ▸ hcv1)
        exact List.getElem?_set_self hlen
  | succ k ih =>
    intro cols row model c v j hnd hc hv hj hlen
    cases cols with
    | nil => simp at hc
    | cons c0 cs =>
      cases row with
      | nil => simp at hv
      | cons v0 rs =>
        simp only [List.getElem?_cons_succ] at hc hv
        simp only [List.nodup_cons] at hnd
        rw [scanRow, List.zip_cons_cons, List.foldl_cons]
        have hlen2 : j < (applyCol fields model (c0, v0)).length := by
          unfold applyCol
          cases lastTagIdx fields c0 <;> simp [hlen]
        exact ih cs rs (applyCol fields model (c0, v0)) c v j hnd.2 hc hv hj hlen2

/-- A successful `Query` returns exactly the row-by-row scans of the result
set, each started from the caller's model value. -/
theorem goQuery_ok_inv {cfg : Config} {fields : FieldList} {model : List α}
    {query : String} {nargs : Nat} {cols : List String} {rows : List (List α)}
    {plan : PlanNode} {out : List (List α)}
    (h : goQuery cfg fields model query nargs cols rows plan = .ok out) :
    out = rows.map (fun row => scanRow fields cols model row) := by
  simp only [goQuery] at h
  split at h <;> (try simp_all)
  all_goals (split at h <;> (try simp_all))
  all_goals (split at h <;> (try simp_all))
  all_goals (split at h <;> (try simp_all))
  all_goals (split at h <;> (try simp_all))
  all_goals (split at h <;> (try simp_all))
  all_goals (split at h <;> (try simp_all))

/-- Claim C7: a successful `Query` over a result set with N rows returns
exactly N records and an empty (not absent) list for zero rows, and — for a
record type with distinct tags and a result set with distinct column names
— every field whose tag names a result column is populated with that
column's value for the row. -/
theorem query_materializes_rows {α : Type} (cfg : Config) (fields : FieldList)
    (model : List α) (query : String) (nargs : Nat) (cols : List String)
    (rows : List (List α)) (plan : PlanNode) (out : List (List α))
    (hout : goQuery cfg fields model query nargs cols rows plan = .ok out)
    (hndt : (fields.map Prod.snd).Nodup) (hndc : cols.Nodup)
    (hlen : model.length = fields.length) :
    out.length = rows.length
    ∧ (rows = [] → out = [])
    ∧ (∀ (i : Nat) (row r0 : List α), rows[i]? = some row → out[i]? = some r0 →
        ∀ (j : Nat) (f : String × String) (k : Nat) (v : α),
          fields[j]? = some f → cols[k]? = some f.2 → row[k]? = some v →
          r0[j]? = some v) := by
  have hinv := goQuery_ok_inv hout
  subst hinv
  refine ⟨by simp, by intro h; simp [h], ?_⟩
  intro i row r0 hi hr0 j f k v hj hk hv
  rw [List.getElem?_map, hi] at hr0
  simp only [Option.map_some'] at hr0
  injection hr0 with hr0
  subst hr0
  have hjlt : j < model.length := by
    rw [hlen]
    exact (List.getElem?_eq_some.mp hj).1
  exact scanRow_get_written fields k cols row model f.2 v j hndc hk hv
    (lastTagIdx_last fields hndt j f hj) hjlt

/-- Witness for C7 on a two-row result set with columns in driver order
"b", "a" against fields tagged "a", "b". -/
theorem query_materializes_rows_witness :
    ([[2, 1], [4, 3]] : List (List Nat)).length = [[1, 2], [3, 4]].length
    ∧ ([2, 1] : List Nat)[0]? = some 2 :=
  ⟨(query_materializes_rows prodConfig [("A", "a"), ("B", "b")] [0, 0]
      "SELECT * FROM t WHERE id=1" 0 ["b", "a"] [[1, 2], [3, 4]]
      (.node "Index Scan" []) [[2, 1], [4, 3]] rfl (by decide) (by decide) (by decide)).1,
   (query_materializes_rows prodConfig [("A", "a"), ("B", "b")] [0, 0]
      "SELECT * FROM t WHERE id=1" 0 ["b", "a"] [[1, 2], [3, 4]]
      (.node "Index Scan" []) [[2, 1], [4, 3]] rfl (by decide) (by decide) (by decide)).2.2
     0 [1, 2] [2, 1] rfl rfl 0 ("A", "a") 1 2 rfl rfl rfl⟩

/-- Claim C8 counterexample: the caller supplies a model value whose second
field (tag "b", not among the result columns) is 7; the returned record
keeps 7 — the caller-supplied model value — not the zero value 0 the claim
asserts. -/
theorem scan_zero_value_counterexample :
    goQuery prodConfig [("A", "a"), ("B", "b")] [0, 7] "SELECT * FROM t WHERE id=1" 0
        ["a"] [[5]] (.node "Index Scan" []) = .ok [[5, 7]]
    ∧ (GoRes.ok [[5, 7]] ≠ (GoRes.ok [[5, 0]] : GoRes (List (List Nat)))) := by
  constructor
  · rfl
  · decide

/-- Claim C8 amended: each result row is scanned into a fresh copy of the
caller-supplied model value, so no value carries over from a previous row
(row i's record depends only on the model and row i), and a field whose tag
matches no result column holds the model's value for that field — which is
the zero value exactly when the caller passes a zero-valued model, not in
general. -/
theorem scan_fresh_model_copy {α : Type} (cfg : Config) (fields : FieldList)
    (model : List α) (query : String) (nargs : Nat) (cols : List String)
    (rows : List (List α)) (plan : PlanNode) (out : List (List α))
    (hout : goQuery cfg fields model query nargs cols rows plan = .ok out) :
    (∀ (i : Nat) (row : List α), rows[i]? = some row →
        out[i]? = some (scanRow fields cols model row))
    ∧ (∀ (row : List α) (j : Nat) (f : String × String),
        fields[j]? = some f → f.2 ∉ cols →
        (scanRow fields cols model row)[j]? = model[j]?) := by
  have hinv := goQuery_ok_inv hout
  subst hinv
  constructor
  · intro i row hi
    rw [List.getElem?_map, hi]
    rfl
  · intro row j f hj hfc
    rw [scanRow]
    apply foldl_applyCol_no_write
    intro cv hcv heq
    have h1 := lastTagIdx_sound fields cv.1 j heq
    have h2 : (fields.map Prod.snd)[j]? = some f.2 := by
      rw [List.getElem?_map, hj]
      rfl
    rw [h1] at h2
    injection h2 with h2
    exact hfc (h2 ▸ (List.of_mem_zip hcv).1)

/-- Witness for the amended C8 at the counterexample's input. -/
theorem scan_fresh_model_copy_witness :
    ([[5, 7]] : List (List Nat))[0]?
        = some (scanRow [("A", "a"), ("B", "b")] ["a"] [0, 7] [5])
    ∧ (scanRow [("A", "a"), ("B", "b")] ["a"] [0, 7] ([5] : List Nat))[1]?
        = ([0, 7] : List Nat)[1]? :=
  ⟨(scan_fresh_model_copy prodConfig [("A", "a"), ("B", "b")] [0, 7]
      "SELECT * FROM t WHERE id=1" 0 ["a"] [[5]] (.node "Index Scan" [])
      [[5, 7]] rfl).1 0 [5] rfl,
   (scan_fresh_model_copy prodConfig [("A", "a"), ("B", "b")] [0, 7]
      "SELECT * FROM t WHERE id=1" 0 ["a"] [[5]] (.node "Index Scan" [])
      [[5, 7]] rfl).2 [5] 1 ("B", "b") rfl (by decide)⟩

end SimpleSQL
